import Mathlib

/-!
Verification of `rtkSimplexSpectralProjectionsDecompositionImageFilter.h`
(namespace `rtk` of the RTK repository).

The cost-function class `Schlomka2008NegativeLogLikelihood` is embedded
shallowly: its three template dimensions (`NbMaterials`,
`NumberOfSpectralBins`, `NumberOfEnergies`) become natural-number
parameters `M`, `B`, `E`; its four protected member fields become record
fields; `float` arithmetic is modelled by exact real arithmetic; the
`itk`/`vnl` vector and matrix operations (matrix–vector product,
`element_product`, dot product, `GetInverse`, `get_diagonal`) are spelled
out as sums, pointwise products and the Mathlib matrix inverse.
-/

namespace RTK

/-- Record of the protected members of `rtk::Schlomka2008NegativeLogLikelihood`
(lines 184–187 of the header): the material attenuations table
(`NbMaterials` per-energy vectors), the detector response matrix
(`NumberOfSpectralBins × NumberOfEnergies`), the incident spectrum and the
measured detector counts of the current pixel. -/
structure Schlomka2008NegativeLogLikelihood (M B E : ℕ) where
  m_MaterialAttenuations : Fin M → Fin E → ℝ
  m_DetectorResponse : Fin B → Fin E → ℝ
  m_IncidentSpectrum : Fin E → ℝ
  m_DetectorCounts : Fin B → ℝ

/-- Product of an `itk::Matrix` with an `itk::Vector`: row `b` of the result
is the dot product of row `b` of the matrix with the vector. -/
def matVec {B E : ℕ} (A : Fin B → Fin E → ℝ) (v : Fin E → ℝ) : Fin B → ℝ :=
  fun b => ∑ e, A b e * v e

namespace Schlomka2008NegativeLogLikelihood

variable {M B E : ℕ}

/-- Embedding of `GetAttenuatedIncidentSpectrum` (header lines 78–98): for
each energy `e` the loop accumulates `totalAttenuation = Σ_m
lineIntegrals[m] * m_MaterialAttenuations[m][e]` and stores
`m_IncidentSpectrum[e] * exp(-totalAttenuation)`. -/
noncomputable def GetAttenuatedIncidentSpectrum
    (self : Schlomka2008NegativeLogLikelihood M B E)
    (lineIntegrals : Fin M → ℝ) : Fin E → ℝ :=
  fun e =>
    self.m_IncidentSpectrum e *
      Real.exp (-(∑ m, lineIntegrals m * self.m_MaterialAttenuations m e))

/-- Embedding of `ForwardModel` (header lines 72–76): apply the detector
response matrix to the attenuated incident spectrum, getting the lambdas. -/
noncomputable def ForwardModel (self : Schlomka2008NegativeLogLikelihood M B E)
    (lineIntegrals : Fin M → ℝ) : Fin B → ℝ :=
  matVec self.m_DetectorResponse (self.GetAttenuatedIncidentSpectrum lineIntegrals)

/-- Embedding of `GetValue` (header lines 152–164): compute the lambdas with
the forward model, then accumulate
`measure += lambdas[i] - std::log(lambdas[i]) * m_DetectorCounts[i]`
over the spectral bins. -/
noncomputable def GetValue (self : Schlomka2008NegativeLogLikelihood M B E)
    (parameters : Fin M → ℝ) : ℝ :=
  let lambdas := self.ForwardModel parameters
  ∑ i, (lambdas i - Real.log (lambdas i) * self.m_DetectorCounts i)

/-- Embedding of the weight vector built at header lines 106–109 inside
`GetCramerRaoLowerBound`: the code sets `weights` to
`element_product(lambdas, lambdas)` and then to
`element_product(weights, m_DetectorCounts)`, so component `b` holds
`λ_b · λ_b · counts_b`.  (The comment above those lines announces
`m_b / lambda_b²` instead; see `crlbWeights_multiplies_not_divides`.) -/
noncomputable def weights (self : Schlomka2008NegativeLogLikelihood M B E)
    (lineIntegrals : Fin M → ℝ) : Fin B → ℝ :=
  fun b => self.ForwardModel lineIntegrals b * self.ForwardModel lineIntegrals b *
    self.m_DetectorCounts b

/-- Embedding of the local `intermediate_a` of `GetCramerRaoLowerBound`
(header lines 124–125): the pointwise product of the attenuated incident
spectrum with material `a`'s attenuation vector. -/
noncomputable def intermediate (self : Schlomka2008NegativeLogLikelihood M B E)
    (lineIntegrals : Fin M → ℝ) (a : Fin M) : Fin E → ℝ :=
  fun e => self.GetAttenuatedIncidentSpectrum lineIntegrals e *
    self.m_MaterialAttenuations a e

/-- Embedding of the local `partial_derivative_a` of `GetCramerRaoLowerBound`
(header lines 127–128): the detector response matrix applied to
`intermediate`, i.e. the partial derivative of each `λ_b` with respect to
material `a`'s line integral. -/
noncomputable def dLambda (self : Schlomka2008NegativeLogLikelihood M B E)
    (lineIntegrals : Fin M → ℝ) (a : Fin M) : Fin B → ℝ :=
  matVec self.m_DetectorResponse (self.intermediate lineIntegrals a)

/-- Embedding of the `Fischer` matrix of `GetCramerRaoLowerBound` (header
lines 117–134): entry `(a, aPrime)` is the dot product of the elementwise
product of the two partial-derivative vectors with the weight vector. -/
noncomputable def Fischer (self : Schlomka2008NegativeLogLikelihood M B E)
    (lineIntegrals : Fin M → ℝ) : Matrix (Fin M) (Fin M) ℝ :=
  Matrix.of fun a aPrime =>
    ∑ b, self.dLambda lineIntegrals a b * self.dLambda lineIntegrals aPrime b *
      self.weights lineIntegrals b

/-- Embedding of `GetCramerRaoLowerBound` (header lines 100–143).  The call
`Fischer.GetInverse()` resolves to `itk::Matrix::GetInverse`, which raises
an exception when the determinant of the matrix is zero and otherwise
returns the inverse; the exceptional exit is embedded as `none`.  On the
regular path the code extracts the diagonal of the inverse and returns its
elementwise reciprocal. -/
noncomputable def GetCramerRaoLowerBound
    (self : Schlomka2008NegativeLogLikelihood M B E)
    (lineIntegrals : Fin M → ℝ) : Option (Fin M → ℝ) :=
  if (self.Fischer lineIntegrals).det = 0 then none
  else some fun mat => 1 / (self.Fischer lineIntegrals)⁻¹ mat mat

end Schlomka2008NegativeLogLikelihood

open Schlomka2008NegativeLogLikelihood

/-- Claim C2: for every parameter vector, `GetValue` returns
`Σ_b (λ_b − counts_b · ln(λ_b))`, where `λ = ForwardModel(parameters)` and
`counts_b` is the stored measured count for spectral bin `b`. -/
theorem getValue_is_negative_log_likelihood {M B E : ℕ}
    (self : Schlomka2008NegativeLogLikelihood M B E) (parameters : Fin M → ℝ) :
    self.GetValue parameters =
      ∑ b, (self.ForwardModel parameters b -
        self.m_DetectorCounts b * Real.log (self.ForwardModel parameters b)) := by
  unfold Schlomka2008NegativeLogLikelihood.GetValue
  refine Finset.sum_congr rfl fun b _ => ?_
  ring

/-- Claim C3: for every line-integral vector, `GetAttenuatedIncidentSpectrum`
computes `attenuated[e] = incident[e] · exp(−Σ_m lineIntegral[m] ·
attenuation[m][e])`, `ForwardModel` is the detector response matrix applied
to that vector, and hence each predicted bin count is
`Σ_e response[b][e] · incident[e] · exp(−Σ_m lineIntegral[m] · attenuation[m][e])`. -/
theorem forwardModel_formula {M B E : ℕ}
    (self : Schlomka2008NegativeLogLikelihood M B E) (lineIntegrals : Fin M → ℝ) :
    (∀ e, self.GetAttenuatedIncidentSpectrum lineIntegrals e =
        self.m_IncidentSpectrum e *
          Real.exp (-(∑ m, lineIntegrals m * self.m_MaterialAttenuations m e))) ∧
    self.ForwardModel lineIntegrals =
      matVec self.m_DetectorResponse (self.GetAttenuatedIncidentSpectrum lineIntegrals) ∧
    (∀ b, self.ForwardModel lineIntegrals b =
        ∑ e, self.m_DetectorResponse b e * self.m_IncidentSpectrum e *
          Real.exp (-(∑ m, lineIntegrals m * self.m_MaterialAttenuations m e))) := by
  refine ⟨fun e => rfl, rfl, fun b => ?_⟩
  unfold Schlomka2008NegativeLogLikelihood.ForwardModel
    Schlomka2008NegativeLogLikelihood.GetAttenuatedIncidentSpectrum matVec
  refine Finset.sum_congr rfl fun e _ => ?_
  ring

/-- Claim C7: for every calibration table contents, `ForwardModel` applied to
the all-zero line-integral vector returns exactly the detector response
matrix applied to the incident spectrum (no attenuation). -/
theorem forwardModel_at_zero {M B E : ℕ}
    (self : Schlomka2008NegativeLogLikelihood M B E) :
    self.ForwardModel (fun _ => 0) =
      matVec self.m_DetectorResponse self.m_IncidentSpectrum := by
  funext b
  unfold Schlomka2008NegativeLogLikelihood.ForwardModel
    Schlomka2008NegativeLogLikelihood.GetAttenuatedIncidentSpectrum matVec
  refine Finset.sum_congr rfl fun e _ => ?_
  simp

/-- Concrete calibration with one material, one bin and one energy: zero
attenuation, unit detector response, incident spectrum 2, measured count 1.
At the zero line integral the predicted count is `λ = 2`. -/
noncomputable def cfC1 : Schlomka2008NegativeLogLikelihood 1 1 1 :=
  { m_MaterialAttenuations := fun _ _ => 0
    m_DetectorResponse := fun _ _ => 1
    m_IncidentSpectrum := fun _ => 2
    m_DetectorCounts := fun _ => 1 }

/-- Claim C1, evaluated at the failing input: `GetCramerRaoLowerBound`
builds its per-bin weight by two `element_product` calls, yielding
`counts_b · λ_b² = 4` at `λ = 2, counts = 1`, whereas the weight announced
by the comment above it (and by the spec) is `counts_b / λ_b² = 1/4`: the
code multiplies by `λ_b²` where its own documentation divides. -/
theorem crlbWeights_multiplies_not_divides :
    cfC1.ForwardModel (fun _ => 0) 0 = 2 ∧
    cfC1.weights (fun _ => 0) 0 = 4 ∧
    cfC1.m_DetectorCounts 0 / (cfC1.ForwardModel (fun _ => 0) 0) ^ 2 = 1 / 4 ∧
    cfC1.weights (fun _ => 0) 0 ≠
      cfC1.m_DetectorCounts 0 / (cfC1.ForwardModel (fun _ => 0) 0) ^ 2 := by
  have hl : cfC1.ForwardModel (fun _ => 0) 0 = 2 := by
    simp [cfC1, ForwardModel, GetAttenuatedIncidentSpectrum, matVec]
  have hw : cfC1.weights (fun _ => 0) 0 = 4 := by
    rw [Schlomka2008NegativeLogLikelihood.weights, hl]
    norm_num [cfC1]
  refine ⟨hl, hw, ?_, ?_⟩
  · rw [hl]; norm_num [cfC1]
  · rw [hl, hw]; norm_num [cfC1]

/-- Claim C6: when the Fisher matrix is invertible, `GetCramerRaoLowerBound`
accumulates `F[a][a′] = Σ_b w_b · (∂λ_b/∂a) · (∂λ_b/∂a′)` with
`∂λ_b/∂a = Σ_e response[b][e] · attenuated[e] · attenuation[a][e]`, inverts
`F`, and returns for each material the reciprocal of the corresponding
diagonal entry of the inverse. -/
theorem getCramerRaoLowerBound_structure {M B E : ℕ}
    (self : Schlomka2008NegativeLogLikelihood M B E) (lineIntegrals : Fin M → ℝ)
    (h : (self.Fischer lineIntegrals).det ≠ 0) :
    (∀ a aPrime, self.Fischer lineIntegrals a aPrime =
        ∑ b, self.weights lineIntegrals b *
          ((∑ e, self.m_DetectorResponse b e *
              self.GetAttenuatedIncidentSpectrum lineIntegrals e *
              self.m_MaterialAttenuations a e) *
           (∑ e, self.m_DetectorResponse b e *
              self.GetAttenuatedIncidentSpectrum lineIntegrals e *
              self.m_MaterialAttenuations aPrime e))) ∧
    self.GetCramerRaoLowerBound lineIntegrals =
      some fun mat => 1 / (self.Fischer lineIntegrals)⁻¹ mat mat := by
  constructor
  · intro a aPrime
    have hpd : ∀ c : Fin M, ∀ b, self.dLambda lineIntegrals c b =
        ∑ e, self.m_DetectorResponse b e *
          self.GetAttenuatedIncidentSpectrum lineIntegrals e *
          self.m_MaterialAttenuations c e := by
      intro c b
      unfold Schlomka2008NegativeLogLikelihood.dLambda
        Schlomka2008NegativeLogLikelihood.intermediate matVec
      exact Finset.sum_congr rfl fun e _ => by ring
    simp only [Schlomka2008NegativeLogLikelihood.Fischer, Matrix.of_apply]
    refine Finset.sum_congr rfl fun b _ => ?_
    rw [hpd a b, hpd aPrime b]
    ring
  · unfold Schlomka2008NegativeLogLikelihood.GetCramerRaoLowerBound
    rw [if_neg h]

/-- Concrete calibration with one material, one bin and one energy, every
table entry equal to 1; at the zero line integral the Fisher matrix is the
1×1 identity. -/
noncomputable def cfC6 : Schlomka2008NegativeLogLikelihood 1 1 1 :=
  { m_MaterialAttenuations := fun _ _ => 1
    m_DetectorResponse := fun _ _ => 1
    m_IncidentSpectrum := fun _ => 1
    m_DetectorCounts := fun _ => 1 }

/-- Witness for claim C6 at the concrete all-ones calibration: the Fisher
determinant is nonzero there and the returned vector is the elementwise
reciprocal of the diagonal of the inverse Fisher matrix. -/
theorem getCramerRaoLowerBound_structure_witness :
    (cfC6.Fischer (fun _ => 0)).det ≠ 0 ∧
    cfC6.GetCramerRaoLowerBound (fun _ => 0) =
      some fun mat => 1 / (cfC6.Fischer (fun _ => 0))⁻¹ mat mat := by
  have hF : cfC6.Fischer (fun _ => 0) 0 0 = 1 := by
    simp [cfC6, Fischer, dLambda, intermediate, matVec, weights, ForwardModel,
      GetAttenuatedIncidentSpectrum]
  have hdet : (cfC6.Fischer (fun _ => 0)).det = 1 := by
    rw [Matrix.det_fin_one, hF]
  have hne : (cfC6.Fischer (fun _ => 0)).det ≠ 0 := by rw [hdet]; norm_num
  exact ⟨hne, (getCramerRaoLowerBound_structure cfC6 (fun _ => 0) hne).2⟩

/-- Claim C4: when two distinct materials have identical per-energy
attenuation curves, the Fisher information matrix has two equal rows, so its
determinant is zero and `GetCramerRaoLowerBound` signals the degeneracy (the
singular-matrix exception raised inside `GetInverse`, embedded as `none`)
instead of returning finite variance values. -/
theorem getCramerRaoLowerBound_singular {M B E : ℕ}
    (self : Schlomka2008NegativeLogLikelihood M B E) (lineIntegrals : Fin M → ℝ)
    (a aPrime : Fin M) (hne : a ≠ aPrime)
    (hatt : self.m_MaterialAttenuations a = self.m_MaterialAttenuations aPrime) :
    (self.Fischer lineIntegrals).det = 0 ∧
    self.GetCramerRaoLowerBound lineIntegrals = none := by
  have hinter : self.intermediate lineIntegrals a = self.intermediate lineIntegrals aPrime := by
    funext e
    simp only [Schlomka2008NegativeLogLikelihood.intermediate, hatt]
  have hrow : self.Fischer lineIntegrals a = self.Fischer lineIntegrals aPrime := by
    funext c
    simp only [Schlomka2008NegativeLogLikelihood.Fischer, Matrix.of_apply,
      Schlomka2008NegativeLogLikelihood.dLambda, hinter]
  have hdet : (self.Fischer lineIntegrals).det = 0 :=
    Matrix.det_zero_of_row_eq hne hrow
  refine ⟨hdet, ?_⟩
  unfold Schlomka2008NegativeLogLikelihood.GetCramerRaoLowerBound
  rw [if_pos hdet]

/-- Concrete calibration with one material, one bin and one energy whose
incident spectrum is identically zero, so the predicted count of the single
bin is `λ = 0` at every line integral. -/
noncomputable def cfC5 : Schlomka2008NegativeLogLikelihood 1 1 1 :=
  { m_MaterialAttenuations := fun _ _ => 0
    m_DetectorResponse := fun _ _ => 1
    m_IncidentSpectrum := fun _ => 0
    m_DetectorCounts := fun _ => 1 }

/-- Counterexample to claim C5: at the calibration `cfC5` the predicted bin
count is 0 — non-positive — yet `GetValue` still evaluates the same
unguarded expression, applying the logarithm to that non-positive predicted
count; no guard in `GetValue` prevents it. -/
theorem getValue_no_guard_cex :
    cfC5.ForwardModel (fun _ => 0) 0 = 0 ∧
    cfC5.GetValue (fun _ => 0) =
      cfC5.ForwardModel (fun _ => 0) 0 -
        Real.log (cfC5.ForwardModel (fun _ => 0) 0) * cfC5.m_DetectorCounts 0 := by
  constructor
  · simp [cfC5, ForwardModel, GetAttenuatedIncidentSpectrum, matVec]
  · show (∑ i : Fin 1, (cfC5.ForwardModel (fun _ => 0) i -
        Real.log (cfC5.ForwardModel (fun _ => 0) i) * cfC5.m_DetectorCounts i)) = _
    rw [Fin.sum_univ_one]

/-- Claim C5 as amended: `GetValue` contains no guard — for every candidate
whose predicted count in some bin is non-positive, it still computes the
unguarded expression, the term of that bin applying the logarithm to the
non-positive predicted count. -/
theorem getValue_unguarded {M B E : ℕ}
    (self : Schlomka2008NegativeLogLikelihood M B E) (parameters : Fin M → ℝ)
    (b : Fin B) (hb : self.ForwardModel parameters b ≤ 0) :
    self.GetValue parameters =
      (self.ForwardModel parameters b -
        Real.log (self.ForwardModel parameters b) * self.m_DetectorCounts b) +
      ∑ i ∈ Finset.univ.erase b, (self.ForwardModel parameters i -
        Real.log (self.ForwardModel parameters i) * self.m_DetectorCounts i) :=
  (Finset.add_sum_erase Finset.univ
    (fun i => self.ForwardModel parameters i -
      Real.log (self.ForwardModel parameters i) * self.m_DetectorCounts i)
    (Finset.mem_univ b)).symm

/-- Witness for the amended claim C5 at the concrete calibration `cfC5`:
its single predicted count is non-positive and the unguarded expression is
what `GetValue` computes there. -/
theorem getValue_unguarded_witness :
    cfC5.ForwardModel (fun _ => 0) 0 ≤ 0 ∧
    cfC5.GetValue (fun _ => 0) =
      (cfC5.ForwardModel (fun _ => 0) 0 -
        Real.log (cfC5.ForwardModel (fun _ => 0) 0) * cfC5.m_DetectorCounts 0) +
      ∑ i ∈ Finset.univ.erase (0 : Fin 1), (cfC5.ForwardModel (fun _ => 0) i -
        Real.log (cfC5.ForwardModel (fun _ => 0) i) * cfC5.m_DetectorCounts i) := by
  have hb : cfC5.ForwardModel (fun _ => 0) 0 ≤ 0 := by
    simp [cfC5, ForwardModel, GetAttenuatedIncidentSpectrum, matVec]
  exact ⟨hb, getValue_unguarded cfC5 (fun _ => 0) 0 hb⟩

/-- Concrete calibration with two materials whose attenuation curves are
identical (both constantly 1), one bin and one energy. -/
noncomputable def cfC4 : Schlomka2008NegativeLogLikelihood 2 1 1 :=
  { m_MaterialAttenuations := fun _ _ => 1
    m_DetectorResponse := fun _ _ => 1
    m_IncidentSpectrum := fun _ => 1
    m_DetectorCounts := fun _ => 1 }

/-- Witness for claim C4: with the two identical materials of `cfC4`, the
bound computation signals the degeneracy. -/
theorem getCramerRaoLowerBound_singular_witness :
    (0 : Fin 2) ≠ 1 ∧ cfC4.GetCramerRaoLowerBound (fun _ => 0) = none :=
  ⟨by decide,
    (getCramerRaoLowerBound_singular cfC4 (fun _ => 0) 0 1 (by decide) rfl).2⟩

/-- State-passing embedding of one call to the const method `ForwardModel`:
the method reads the stored calibration tables and writes only stack locals,
so the pair holds the returned value together with the state of the
cost-function object after the call. -/
noncomputable def ForwardModelCall {M B E : ℕ}
    (self : Schlomka2008NegativeLogLikelihood M B E) (parameters : Fin M → ℝ) :
    (Fin B → ℝ) × Schlomka2008NegativeLogLikelihood M B E :=
  (self.ForwardModel parameters, self)

/-- State-passing embedding of one call to the const method `GetValue`,
analogous to `ForwardModelCall`. -/
noncomputable def GetValueCall {M B E : ℕ}
    (self : Schlomka2008NegativeLogLikelihood M B E) (parameters : Fin M → ℝ) :
    ℝ × Schlomka2008NegativeLogLikelihood M B E :=
  (self.GetValue parameters, self)

/-- Claim C9: `ForwardModel` and `GetValue` are deterministic and
side-effect free — two evaluations with identical stored calibration
tables, detector counts and parameter vectors return identical results, and
each call leaves the stored state of the cost-function object unchanged. -/
theorem forwardModel_getValue_pure {M B E : ℕ}
    (selfOne selfTwo : Schlomka2008NegativeLogLikelihood M B E)
    (pOne pTwo : Fin M → ℝ) (hself : selfOne = selfTwo) (hp : pOne = pTwo) :
    (ForwardModelCall selfOne pOne).1 = (ForwardModelCall selfTwo pTwo).1 ∧
    (GetValueCall selfOne pOne).1 = (GetValueCall selfTwo pTwo).1 ∧
    (ForwardModelCall selfOne pOne).2 = selfOne ∧
    (GetValueCall selfOne pOne).2 = selfOne := by
  subst hself; subst hp
  exact ⟨rfl, rfl, rfl, rfl⟩

/-- Concrete all-ones calibration used by the purity witness. -/
noncomputable def cfC9 : Schlomka2008NegativeLogLikelihood 1 1 1 :=
  { m_MaterialAttenuations := fun _ _ => 1
    m_DetectorResponse := fun _ _ => 1
    m_IncidentSpectrum := fun _ => 1
    m_DetectorCounts := fun _ => 1 }

/-- Witness for claim C9 at the concrete calibration `cfC9`. -/
theorem forwardModel_getValue_pure_witness :
    (GetValueCall cfC9 (fun _ => 0)).1 = (GetValueCall cfC9 (fun _ => 0)).1 ∧
    (GetValueCall cfC9 (fun _ => 0)).2 = cfC9 :=
  ⟨(forwardModel_getValue_pure cfC9 cfC9 (fun _ => 0) (fun _ => 0) rfl rfl).2.1,
   (forwardModel_getValue_pure cfC9 cfC9 (fun _ => 0) (fun _ => 0) rfl rfl).2.2.2⟩

/-- Concrete calibration with one material, one bin and two energies: zero
attenuation, unit detector response, incident spectrum `(1, −2)`.  Row 0 of
the detector response is nonnegative and positive at energy 0 where the
incident spectrum is positive, yet `λ_0 = 1 − 2 = −1`. -/
noncomputable def cfC10 : Schlomka2008NegativeLogLikelihood 1 1 2 :=
  { m_MaterialAttenuations := fun _ _ => 0
    m_DetectorResponse := fun _ _ => 1
    m_IncidentSpectrum := ![1, -2]
    m_DetectorCounts := fun _ => 1 }

/-- Counterexample to claim C10 as stated: at `cfC10` the detector response
row is nonnegative and has a positive entry at an energy with positive
incident fluence, yet the predicted count of the bin is −1, not strictly
positive — the claim is false without assuming the incident spectrum
nonnegative at every energy. -/
theorem forwardModel_pos_cex :
    (0 ≤ cfC10.m_DetectorResponse 0 0 ∧ 0 ≤ cfC10.m_DetectorResponse 0 1) ∧
    (0 < cfC10.m_DetectorResponse 0 0 ∧ 0 < cfC10.m_IncidentSpectrum 0) ∧
    ¬ 0 < cfC10.ForwardModel (fun _ => 0) 0 := by
  have hl : cfC10.ForwardModel (fun _ => 0) 0 = -1 := by
    simp [cfC10, ForwardModel, GetAttenuatedIncidentSpectrum, matVec,
      Fin.sum_univ_two]
    norm_num
  refine ⟨⟨by norm_num [cfC10], by norm_num [cfC10]⟩,
    ⟨by norm_num [cfC10], by norm_num [cfC10]⟩, ?_⟩
  rw [hl]; norm_num

/-- Claim C10 as amended (adding nonnegativity of the incident spectrum):
each entry of `GetAttenuatedIncidentSpectrum` is the incident fluence times
a strictly positive exponential, hence strictly positive whenever
`incident[e] > 0`; and when the incident spectrum is nonnegative at every
energy, every predicted bin count `λ_b` is strictly positive whenever the
detector response row `b` is nonnegative with a positive entry at an energy
where the incident spectrum is positive — the precondition under which the
logarithm in `GetValue` is well-defined. -/
theorem forwardModel_pos {M B E : ℕ}
    (self : Schlomka2008NegativeLogLikelihood M B E) (lineIntegrals : Fin M → ℝ)
    (b : Fin B)
    (hinc : ∀ e, 0 ≤ self.m_IncidentSpectrum e)
    (hrow : ∀ e, 0 ≤ self.m_DetectorResponse b e)
    (hex : ∃ e, 0 < self.m_DetectorResponse b e ∧ 0 < self.m_IncidentSpectrum e) :
    (∀ e, 0 < self.m_IncidentSpectrum e →
        0 < self.GetAttenuatedIncidentSpectrum lineIntegrals e) ∧
    0 < self.ForwardModel lineIntegrals b := by
  have hatt : ∀ e, 0 < self.m_IncidentSpectrum e →
      0 < self.GetAttenuatedIncidentSpectrum lineIntegrals e := by
    intro e he
    exact mul_pos he (Real.exp_pos _)
  refine ⟨hatt, ?_⟩
  unfold Schlomka2008NegativeLogLikelihood.ForwardModel matVec
  refine Finset.sum_pos' ?_ ?_
  · intro e _
    exact mul_nonneg (hrow e) (mul_nonneg (hinc e) (Real.exp_pos _).le)
  · obtain ⟨e, hre, hie⟩ := hex
    exact ⟨e, Finset.mem_univ e, mul_pos hre (hatt e hie)⟩

/-- Concrete all-ones calibration with one material, one bin and one energy
used by the positivity witness. -/
noncomputable def cfC10w : Schlomka2008NegativeLogLikelihood 1 1 1 :=
  { m_MaterialAttenuations := fun _ _ => 1
    m_DetectorResponse := fun _ _ => 1
    m_IncidentSpectrum := fun _ => 1
    m_DetectorCounts := fun _ => 1 }

/-- Witness for the amended claim C10 at the concrete calibration `cfC10w`. -/
theorem forwardModel_pos_witness :
    (0 : ℝ) ≤ cfC10w.m_IncidentSpectrum 0 ∧
    0 < cfC10w.m_DetectorResponse 0 0 ∧
    0 < cfC10w.ForwardModel (fun _ => 0) 0 :=
  ⟨by norm_num [cfC10w], by norm_num [cfC10w],
    (forwardModel_pos cfC10w (fun _ => 0) 0 (fun _ => by norm_num [cfC10w])
      (fun _ => by norm_num [cfC10w])
      ⟨0, by norm_num [cfC10w], by norm_num [cfC10w]⟩).2⟩

/-- Error taxonomy of the filter setup, from the spec: a configuration
error is fatal and raised before any pixel is processed. -/
inductive DecompositionError where
  | ConfigurationError

/-- Thresholds member of the filter (header lines 216 and 272): an
`itk::Vector<unsigned int, bins + 1>`, embedded as a function from
`Fin (B + 1)` to ℕ. -/
abbrev ThresholdsType (B : ℕ) := Fin (B + 1) → ℕ

/-- Modelled from the spec: the body of `BeforeThreadedGenerateData` lives
in `rtkSimplexSpectralProjectionsDecompositionImageFilter.hxx`, which is
not among the available sources (the header only declares the method at
line 263, and `SetThresholds` at line 252 is a plain setter).  Following
the spec, setup validates the thresholds sequence: non-decreasing, first
entry at least 0, last entry equal to the number of energies. -/
def thresholdsValid (B En : ℕ) (t : ThresholdsType B) : Prop :=
  (∀ i j : Fin (B + 1), i ≤ j → t i ≤ t j) ∧ 0 ≤ t 0 ∧ t (Fin.last B) = En

instance {B En : ℕ} {t : ThresholdsType B} : Decidable (thresholdsValid B En t) :=
  inferInstanceAs (Decidable ((∀ i j : Fin (B + 1), i ≤ j → t i ≤ t j) ∧
    0 ≤ t 0 ∧ t (Fin.last B) = En))

/-- Modelled from the spec: at setup `BeforeThreadedGenerateData` raises a
ConfigurationError when the thresholds sequence is invalid; the raise is
embedded as `Except.error`. -/
def BeforeThreadedGenerateData (B En : ℕ) (t : ThresholdsType B) :
    Except DecompositionError Unit :=
  if thresholdsValid B En t then Except.ok ()
  else Except.error DecompositionError.ConfigurationError

/-- Modelled from the spec: the filter runs setup first and only then the
per-pixel loop (`ThreadedGenerateData`, one output per pixel of the
region); when setup raises, the error propagates and no pixel is
processed. -/
def GenerateData {P O : Type} (B En : ℕ) (t : ThresholdsType B)
    (pixels : List P) (processPixel : P → O) :
    Except DecompositionError (List O) :=
  match BeforeThreadedGenerateData B En t with
  | Except.error e => Except.error e
  | Except.ok _ => Except.ok (pixels.map processPixel)

/-- Claim C8: at setup, before any pixel is processed, every thresholds
sequence that violates non-decreasing order, has first entry below 0, or
last entry different from the number of energies causes a
ConfigurationError, and the run returns the error rather than a list of
per-pixel outputs: no pixel is processed after such an error. -/
theorem thresholds_validation {P O : Type} (B En : ℕ) (t : ThresholdsType B)
    (pixels : List P) (processPixel : P → O)
    (hviol : (∃ i j : Fin (B + 1), i ≤ j ∧ t j < t i) ∨
      t 0 < 0 ∨ t (Fin.last B) ≠ En) :
    BeforeThreadedGenerateData B En t =
      Except.error DecompositionError.ConfigurationError ∧
    GenerateData B En t pixels processPixel =
      Except.error DecompositionError.ConfigurationError := by
  have hnv : ¬ thresholdsValid B En t := by
    intro hv
    unfold thresholdsValid at hv
    obtain ⟨hmono, -, hlast⟩ := hv
    rcases hviol with ⟨i, j, hij, hlt⟩ | hneg | hne
    · exact absurd (hmono i j hij) (not_le.mpr hlt)
    · exact absurd hneg (Nat.not_lt_zero _)
    · exact hne hlast
  have hb : BeforeThreadedGenerateData B En t =
      Except.error DecompositionError.ConfigurationError := by
    unfold BeforeThreadedGenerateData
    rw [if_neg hnv]
  exact ⟨hb, by unfold GenerateData; rw [hb]⟩

/-- Concrete invalid thresholds sequence for one spectral bin and two
energies: `(3, 1)` is decreasing and its last entry differs from 2. -/
def tBad : ThresholdsType 1 := ![3, 1]

/-- Witness for claim C8: with the invalid sequence `tBad`, setup raises
the configuration error and the run processes no pixel. -/
theorem thresholds_validation_witness :
    tBad (Fin.last 1) ≠ 2 ∧
    GenerateData 1 2 tBad [0] (fun p : ℕ => p) =
      Except.error DecompositionError.ConfigurationError :=
  ⟨by decide,
    (thresholds_validation 1 2 tBad [0] (fun p => p)
      (Or.inr (Or.inr (by decide)))).2⟩

end RTK
